import Mathlib

/-!
Verification of the template-registry package (view.go) against its
specification.  The Go code is shallowly embedded: Go strings become
`List Char`, the filesystem and the template engine become explicit
parameters, `filepath.Walk` becomes a fold over the sequence of entries the
traversal visits, and Go panics (nil dereference, slice underflow) become
explicit `crash` outcomes.
-/

set_option autoImplicit false

/-- Go strings, embedded as lists of characters. -/
abbrev GoStr := List Char

/-- Coerce a Lean string literal to the embedded representation. -/
def gs (s : String) : GoStr := s.data

deriving instance DecidableEq for Except

/-- Cutset of strings.Trim(v.path, "./\\") in TemplateName (view.go line 118). -/
def cutTrim : List Char := ['.', '/', '\\']

/-- Cutset of strings.TrimLeft(..., "/\\") in TemplateName (view.go line 120). -/
def cutSep : List Char := ['/', '\\']

/-- Go strings.TrimLeft: drop the longest leading run of characters from the cutset. -/
def goTrimLeft (s cut : GoStr) : GoStr := s.dropWhile (fun c => cut.contains c)

/-- Go strings.Trim: drop the longest leading and trailing runs of cutset characters. -/
def goTrim (s cut : GoStr) : GoStr :=
  ((s.dropWhile (fun c => cut.contains c)).reverse.dropWhile (fun c => cut.contains c)).reverse

/-- Go strings.Replace(s, old, "", 1): delete the first occurrence of old in s.
With old = "" Go inserts the empty replacement, leaving s unchanged. -/
def goReplaceOne : GoStr → GoStr → GoStr
  | s, [] => s
  | [], _ :: _ => []
  | c :: s, o :: os =>
    if (o :: os).isPrefixOf (c :: s) then (c :: s).drop (o :: os).length
    else c :: goReplaceOne s (o :: os)

/-- Go filepath.Ext, scanning a reversed path: collect characters from the end
until a dot (return the dot plus what was collected) or a path separator or
the start of the string (return ""). On Linux only '/' separates. -/
def extFromRev (acc : List Char) : List Char → List Char
  | [] => []
  | c :: rest =>
    if c = '/' then []
    else if c = '.' then '.' :: acc
    else extFromRev (c :: acc) rest

/-- Go filepath.Ext: the suffix beginning at the final dot in the final
path element; empty when that element has no dot. -/
def filepathExt (s : GoStr) : GoStr := extFromRev [] s.reverse

/-- The registry object (view.go lines 25-32).  The mutex is not a data field
of the functional model; lock usage is modelled separately by event traces. -/
structure Views where
  reload : Bool
  path : GoStr
  tmplExt : GoStr
  tmpls : Option (List (GoStr × GoStr))
  deriving DecidableEq, Repr

/-- A compiled collection: the named units added by t.New(name).Parse(src),
in the order they were defined.  A later definition of a name shadows an
earlier one, matching the template engine's replace-on-redefine rule. -/
abbrev Tmpl := List (GoStr × GoStr)

/-- TemplateName (view.go lines 116-124).  The final Go expression
s[:len(s)-len(v.tmplExt)] panics when len(s) < len(v.tmplExt); the embedding
returns none for that crash and some name otherwise. -/
def templateName (path tmplExt s : GoStr) : Option GoStr :=
  let cf := goTrim path cutTrim
  let s1 := goTrimLeft (goReplaceOne s cf) cutSep
  if tmplExt.length ≤ s1.length then some (s1.take (s1.length - tmplExt.length)) else none

example : templateName (gs "templates/") (gs ".tmpl") (gs "templates/foo/bar/index.tmpl")
    = some (gs "foo/bar/index") := by decide

example : templateName (gs "foo.tmpl") (gs ".tmpl") (gs "foo.tmpl") = none := by decide

example : filepathExt (gs "d/foo.x.tmpl") = gs ".tmpl" := by decide
example : filepathExt (gs "d/footmpl") = gs "" := by decide
example : filepathExt (gs "t/\\a.tmpl") = gs ".tmpl" := by decide

/-- One invocation of the walk callback: the path, the os.FileInfo (none
models the nil FileInfo that filepath.Walk passes when lstat fails; some b
carries IsDir), and the incoming per-entry error. -/
structure WalkEntry where
  path : GoStr
  info : Option Bool
  err : Option GoStr
  deriving DecidableEq, Repr

/-- The environment the compile pass consumes: ioutil.ReadFile as a function
of the path, and the engine's parser verdict on a source text (none = parse
succeeds, some e = Parse returns error e). -/
structure Env where
  readFile : GoStr → Except GoStr GoStr
  parseRes : GoStr → Option GoStr

/-- Outcome of one walk-callback invocation. -/
inductive StepOut where
  | crash
  | halt (e : GoStr)
  | next (t : Tmpl)
  deriving DecidableEq, Repr

/-- Define name as src in the collection: t.New(name).Parse(src) appends the
unit; lookup takes the latest definition of a name. -/
def tmplAdd (t : Tmpl) (nm src : GoStr) : Tmpl := t ++ [(nm, src)]

/-- Lookup by name in a collection: the most recently defined unit wins. -/
def tmplLookup (t : Tmpl) (nm : GoStr) : Option GoStr :=
  (t.reverse.find? (fun p => p.1 == nm)).map (fun p => p.2)

/-- The walk callback of ParseTemplates (view.go lines 87-103).  It logs an
incoming error (no state change), crashes on info.IsDir() when info is nil,
processes a non-directory entry whose filepath.Ext equals tmplExt (read the
file, derive the name - a possible slice crash - and parse), and finally
executes return err with the incoming per-entry error, so a non-nil incoming
error is always returned to filepath.Walk even after a successful parse. -/
def walkStep (env : Env) (v : Views) (t : Tmpl) (e : WalkEntry) : StepOut :=
  match e.info with
  | none => .crash
  | some isDir =>
    if !isDir && filepathExt e.path == v.tmplExt then
      match env.readFile e.path with
      | .error er => .halt er
      | .ok b =>
        match templateName v.path v.tmplExt e.path with
        | none => .crash
        | some nm =>
          match env.parseRes b with
          | some er => .halt er
          | none =>
            match e.err with
            | some er => .halt er
            | none => .next (tmplAdd t nm b)
    else
      match e.err with
      | some er => .halt er
      | none => .next t

/-- Outcome of filepath.Walk over the visited entries. -/
inductive WalkOut where
  | crash
  | err (e : GoStr)
  | done (t : Tmpl)
  deriving DecidableEq, Repr

/-- filepath.Walk as seen by this callback: entries are visited in order and
the first non-nil error the callback returns stops the traversal and becomes
the result of Walk (the callback never returns SkipDir). -/
def runWalk (env : Env) (v : Views) : Tmpl → List WalkEntry → WalkOut
  | t, [] => .done t
  | t, e :: es =>
    match walkStep env v t e with
    | .crash => .crash
    | .halt er => .err er
    | .next t' => runWalk env v t' es

/-- Outcome of a compile pass. -/
inductive POut where
  | crash
  | err (e : GoStr)
  | ok
  deriving DecidableEq, Repr

/-- ParseTemplates (view.go lines 84-112): start from the fresh collection
template.New("all"), walk, return the walk error if any, otherwise install
the newly built collection under the lock. -/
def parseTemplates (env : Env) (entries : List WalkEntry) (v : Views) : POut × Views :=
  match runWalk env v [] entries with
  | .crash => (.crash, v)
  | .err e => (.err e, v)
  | .done t => (.ok, { v with tmpls := some t })

/-- Outcome of a render call. -/
inductive ExecOut where
  | crash
  | err (e : GoStr)
  | out (rendered : GoStr)
  deriving DecidableEq, Repr

/-- v.tmpls.ExecuteTemplate(w, name, data): a method call on a nil collection
crashes; an absent name is a lookup error; otherwise the engine renders the
unit (rendering itself is opaque, modelled as emitting the unit's source). -/
def execNamed (ot : Option Tmpl) (nm : GoStr) : ExecOut :=
  match ot with
  | none => .crash
  | some t =>
    match tmplLookup t nm with
    | none => .err (gs "no template" ++ nm)
    | some src => .out src

/-- ExecuteTemplate (view.go lines 52-60): an unsynchronized read of reload,
a compile pass when it is set (propagating its failure), then delegation to
the installed collection. -/
def executeTemplate (env : Env) (entries : List WalkEntry) (v : Views) (nm : GoStr) :
    ExecOut × Views :=
  if v.reload then
    match parseTemplates env entries v with
    | (.crash, v') => (.crash, v')
    | (.err e, v') => (.err e, v')
    | (.ok, v') => (execNamed v'.tmpls nm, v')
  else (execNamed v.tmpls nm, v)

/-- Execute (view.go lines 63-71): as ExecuteTemplate, delegating to
v.tmpls.Execute, which runs the root template named "all". -/
def execute (env : Env) (entries : List WalkEntry) (v : Views) : ExecOut × Views :=
  if v.reload then
    match parseTemplates env entries v with
    | (.crash, v') => (.crash, v')
    | (.err e, v') => (.err e, v')
    | (.ok, v') => (execNamed v'.tmpls (gs "all"), v')
  else (execNamed v.tmpls (gs "all"), v)

/-- Reload (view.go lines 75-79): set the flag under the lock. -/
def reloadSet (v : Views) (f : Bool) : Views := { v with reload := f }

/-- Outcome of construction. -/
inductive NewOut where
  | crash
  | err (e : GoStr)
  | ok (v : Views)
  deriving DecidableEq, Repr

/-- NewViews (view.go lines 35-49): build the value with a nil collection,
run the first compile pass, propagate its error and otherwise return the
updated value. -/
def newViews (env : Env) (entries : List WalkEntry) (path tmplExt : GoStr) (reload : Bool) :
    NewOut :=
  let v : Views := ⟨reload, path, tmplExt, none⟩
  match parseTemplates env entries v with
  | (.crash, _) => .crash
  | (.err e, _) => .err e
  | (.ok, v') => .ok v'

/-- Events of the shared-state discipline: mutex operations, accesses to the
two guarded fields, and the unguarded walk/read/parse work. -/
inductive Ev where
  | lock
  | unlock
  | readReload
  | writeReload
  | readTmpls
  | writeTmpls
  | work
  deriving DecidableEq, Repr

/-- Event trace of ParseTemplates (view.go lines 84-112): the walk, the
reads and the parses happen with no lock held; only when the pass succeeds
is the mutex taken around the single assignment v.tmpls = t. -/
def parseTemplatesEvs (failed : Bool) : List Ev :=
  if failed then [.work] else [.work, .lock, .writeTmpls, .unlock]

/-- Event trace of Reload (view.go lines 75-79): the mutex around the single
assignment v.reload = f. -/
def reloadEvs : List Ev := [.lock, .writeReload, .unlock]

/-- Event trace of ExecuteTemplate (view.go lines 52-60): v.reload is read
with no lock held; when it is set, the compile pass runs (aborting the call
if it failed) and finally v.tmpls is read, again with no lock held.  Execute
(lines 63-71) has the same trace. -/
def executeTemplateEvs (reload failed : Bool) : List Ev :=
  .readReload ::
    (if reload then parseTemplatesEvs failed ++ (if failed then [] else [.readTmpls])
     else [.readTmpls])

/-- Lock discipline checker: the trace is balanced, and while the mutex is
held the only events are the two guarded field writes - no walk, read or
parse work and no field reads happen under the lock. -/
def lockedFieldOnly : List Ev → Bool → Bool
  | [], held => !held
  | e :: r, false =>
    if e = .lock then lockedFieldOnly r true
    else if e = .unlock then false
    else lockedFieldOnly r false
  | e :: r, true =>
    if e = .unlock then lockedFieldOnly r false
    else if e = .writeReload || e = .writeTmpls then lockedFieldOnly r true
    else false

/-- The name-derivation rule as the specification words it: trim the root of
leading and trailing separator and dot characters, delete the first
occurrence of the trimmed root anywhere in the path, strip the remaining
leading (back)slashes, and drop exactly the extension's length of characters
from the end (undefined - none - when fewer remain). -/
def nameSpec (root ext s : GoStr) : Option GoStr :=
  let trimmedRoot := goTrim root cutTrim
  let afterRemove := goReplaceOne s trimmedRoot
  let afterStrip := goTrimLeft afterRemove cutSep
  if ext.length ≤ afterStrip.length then
    some (afterStrip.take (afterStrip.length - ext.length))
  else none

/-- Auxiliary: whatever the walk produced, a pass that does not succeed
returns the registry exactly as it received it. -/
theorem parseTemplates_snd_of_not_ok (env : Env) (entries : List WalkEntry) (v : Views)
    (h : (parseTemplates env entries v).1 ≠ POut.ok) :
    (parseTemplates env entries v).2 = v := by
  unfold parseTemplates at *
  cases hw : runWalk env v [] entries <;> simp [hw] at h ⊢

/-- C1: if a compile pass (ParseTemplates, called directly, from NewViews or
from a reload-enabled render) returns an error, the registry - in particular
its installed collection tmpls - is exactly what it was before the pass:
nothing, not even a partial collection, is installed. -/
theorem c1_failed_pass_preserves_state (env : Env) (entries : List WalkEntry) (v : Views)
    (e : GoStr) (h : (parseTemplates env entries v).1 = POut.err e) :
    (parseTemplates env entries v).2 = v ∧ (parseTemplates env entries v).2.tmpls = v.tmpls := by
  have h2 : (parseTemplates env entries v).2 = v := by
    apply parseTemplates_snd_of_not_ok
    intro hk
    rw [hk] at h
    exact POut.noConfusion h
  exact ⟨h2, by rw [h2]⟩

def envReadFail : Env := ⟨fun _ => .error (gs "EACCES"), fun _ => none⟩

def entriesSimple : List WalkEntry :=
  [⟨gs "t", some true, none⟩, ⟨gs "t/a.tmpl", some false, none⟩]

def vInstalled : Views := ⟨false, gs "t", gs ".tmpl", some [(gs "old", gs "oldsrc")]⟩

/-- C1 witness: a pass whose file read fails returns that error and leaves
the previously installed collection in place. -/
theorem c1_wit :
    (parseTemplates envReadFail entriesSimple vInstalled).1 = POut.err (gs "EACCES") ∧
    (parseTemplates envReadFail entriesSimple vInstalled).2 = vInstalled :=
  ⟨by decide,
   (c1_failed_pass_preserves_state envReadFail entriesSimple vInstalled (gs "EACCES")
      (by decide)).1⟩

/-- C2: the derived template name is computed exactly as the specification
states - trim the root of leading and trailing separator and dot characters,
delete the first occurrence of the trimmed root anywhere in the path, strip
the remaining leading (back)slashes, drop the extension's length of
characters from the end - and on root templates/, extension .tmpl and file
templates/foo/bar/index.tmpl the derived name is foo/bar/index. -/
theorem c2_template_name_derivation :
    (∀ root ext s, templateName root ext s = nameSpec root ext s) ∧
    templateName (gs "templates/") (gs ".tmpl") (gs "templates/foo/bar/index.tmpl")
      = some (gs "foo/bar/index") :=
  ⟨fun _ _ _ => rfl, by decide⟩

def vMissing : Views := ⟨false, gs "missing", gs ".tmpl", some [(gs "old", gs "oldsrc")]⟩

def envNoFiles : Env := ⟨fun _ => .error (gs "ENOENT"), fun _ => none⟩

/-- C4: when the walk cannot proceed at all - the root is missing, so
filepath.Walk invokes the callback once with a nil FileInfo and the lstat
error - the compile pass does not return the traversal error: the callback
dereferences the nil FileInfo (info.IsDir()) and the program crashes.  The
previously installed collection is still in place at the crash, but the
claimed normal error return does not happen. -/
theorem c4_missing_root_crashes :
    parseTemplates envNoFiles
      [⟨gs "missing", none, some (gs "lstat missing: no such file or directory")⟩]
      vMissing = (POut.crash, vMissing) := by decide

/-- C5 counterexample: a complete render with reload disabled reads the
reload flag and then the installed collection while its event trace contains
no lock acquisition at all, so the mutex is not acquired to read the reload
flag at the start of every render as claimed. -/
theorem c5_cex :
    executeTemplateEvs false false = [Ev.readReload, Ev.readTmpls] ∧
    (executeTemplateEvs false false).contains Ev.lock = false := by decide

/-- C5 amended: the mutex is acquired in exactly two situations - in Reload
around the write of the reload flag and in a successful ParseTemplates
around the swap of tmpls - and while held only those single field writes
happen, never walk, read or parse work; renders read the reload flag and the
collection without acquiring the mutex. -/
theorem c5_lock_discipline : ∀ r f : Bool,
    lockedFieldOnly (executeTemplateEvs r f) false = true ∧
    lockedFieldOnly reloadEvs false = true ∧
    lockedFieldOnly (parseTemplatesEvs f) false = true ∧
    reloadEvs.count Ev.lock = 1 ∧
    (parseTemplatesEvs f).count Ev.lock = (if f then 0 else 1) ∧
    (executeTemplateEvs r f).count Ev.lock = (if r && !f then 1 else 0) := by decide

/-- C8: with the reload flag off, ExecuteTemplate and Execute return the
registry unchanged and their result is determined solely by the installed
collection - two runs against different filesystems and walks agree. -/
theorem c8_no_reload_frame (env1 env2 : Env) (es1 es2 : List WalkEntry) (v : Views)
    (nm : GoStr) (h : v.reload = false) :
    executeTemplate env1 es1 v nm = (execNamed v.tmpls nm, v) ∧
    executeTemplate env1 es1 v nm = executeTemplate env2 es2 v nm ∧
    execute env1 es1 v = (execNamed v.tmpls (gs "all"), v) ∧
    execute env1 es1 v = execute env2 es2 v := by
  simp [executeTemplate, execute, h]

/-- C8 witness: concrete instance with reload off; the render ignores a
filesystem in which every read fails. -/
theorem c8_wit :
    executeTemplate envReadFail entriesSimple vInstalled (gs "old")
      = (ExecOut.out (gs "oldsrc"), vInstalled) ∧
    executeTemplate envReadFail entriesSimple vInstalled (gs "old")
      = executeTemplate envNoFiles [] vInstalled (gs "old") := by
  have h := c8_no_reload_frame envReadFail envNoFiles entriesSimple [] vInstalled (gs "old")
    (by decide)
  exact ⟨by rw [h.1]; decide, h.2.1⟩

def env3 : Env :=
  ⟨fun p => if p == gs "t/a.tmpl" then .ok (gs "hello") else .error (gs "ENOENT"),
   fun _ => none⟩

def v3 : Views := ⟨false, gs "t", gs ".tmpl", some [(gs "old", gs "oldsrc")]⟩

def entries3 : List WalkEntry :=
  [⟨gs "t", some true, none⟩,
   ⟨gs "t/bad", some true, some (gs "permission denied")⟩,
   ⟨gs "t/a.tmpl", some false, none⟩]

/-- C3 counterexample: a per-entry error (an unreadable subdirectory, not a
matched file's own read or parse failure) does not merely get logged: the
callback returns it, the walk stops before the remaining matching file, and
the compile pass fails with that error - while the same walk without the
erroring entry succeeds.  So a per-entry error is not skipped and a fatal
traversal error is not the only way a pass fails. -/
theorem c3_cex :
    parseTemplates env3 entries3 v3 = (POut.err (gs "permission denied"), v3) ∧
    parseTemplates env3 [⟨gs "t", some true, none⟩, ⟨gs "t/a.tmpl", some false, none⟩] v3
      = (POut.ok, { v3 with tmpls := some [(gs "a", gs "hello")] }) := by decide

/-- C3 amended: a per-entry walk error is logged but then returned by the
callback (the final return err), so the walk never continues past an entry
carrying an incoming error: for a directory entry the callback returns that
error, aborting the walk and failing the pass, and for an entry whose
FileInfo is nil the callback crashes. -/
theorem c3_per_entry_error_aborts (env : Env) (v : Views) (t : Tmpl) (e : WalkEntry)
    (er : GoStr) (h : e.err = some er) :
    (∀ t', walkStep env v t e ≠ StepOut.next t') ∧
    (e.info = some true → walkStep env v t e = StepOut.halt er) ∧
    (e.info = none → walkStep env v t e = StepOut.crash) := by
  unfold walkStep
  cases hi : e.info with
  | none => simp
  | some b =>
    cases b with
    | true => simp [h]
    | false =>
      simp only [Bool.not_false, Bool.true_and]
      by_cases hm : (filepathExt e.path == v.tmplExt) = true
      · simp only [hm, if_true]
        cases hr2 : env.readFile e.path with
        | error er2 => simp
        | ok b2 =>
          cases hn : templateName v.path v.tmplExt e.path with
          | none => simp
          | some nm =>
            cases hpr : env.parseRes b2 with
            | some er3 => simp [hpr]
            | none => simp [hpr, h]
      · simp only [Bool.not_eq_true] at hm
        simp [hm, h]

/-- C3 witness: the unreadable-subdirectory entry of the counterexample walk
is never continued past. -/
theorem c3_wit :
    (∀ t', walkStep env3 v3 [] ⟨gs "t/bad", some true, some (gs "permission denied")⟩
        ≠ StepOut.next t') ∧
    walkStep env3 v3 [] ⟨gs "t/bad", some true, some (gs "permission denied")⟩
      = StepOut.halt (gs "permission denied") := by
  have h := c3_per_entry_error_aborts env3 v3 []
    ⟨gs "t/bad", some true, some (gs "permission denied")⟩ (gs "permission denied") (by decide)
  exact ⟨h.1, h.2.1 (by decide)⟩

/-- C6: after a successful construction the installed collection is non-nil;
every operation - compile pass (successful or not), both renders and the
reload toggle - preserves non-nilness; and construction returns an error
exactly when its initial compile pass returns that error. -/
theorem c6_collection_nonnil :
    (∀ env entries p x r v, newViews env entries p x r = NewOut.ok v → v.tmpls.isSome) ∧
    (∀ env entries v, v.tmpls.isSome →
      (parseTemplates env entries v).2.tmpls.isSome ∧
      (∀ nm, (executeTemplate env entries v nm).2.tmpls.isSome) ∧
      (execute env entries v).2.tmpls.isSome ∧
      (∀ f, (reloadSet v f).tmpls.isSome)) ∧
    (∀ env entries p x r e, newViews env entries p x r = NewOut.err e ↔
      (parseTemplates env entries ⟨r, p, x, none⟩).1 = POut.err e) := by
  refine ⟨?_, ?_, ?_⟩
  · intro env entries p x r v h
    unfold newViews at h
    cases hw : runWalk env ⟨r, p, x, none⟩ [] entries with
    | crash => simp [parseTemplates, hw] at h
    | err e => simp [parseTemplates, hw] at h
    | done t =>
      simp [parseTemplates, hw] at h
      rw [← h]
      rfl
  · intro env entries v hv
    have hp : (parseTemplates env entries v).2.tmpls.isSome := by
      cases hw : runWalk env v [] entries <;> simp [parseTemplates, hw, hv]
    refine ⟨hp, ?_, ?_, fun f => hv⟩
    · intro nm
      unfold executeTemplate
      by_cases hr : v.reload
      · simp only [hr, if_true]
        rcases hpt : parseTemplates env entries v with ⟨o, v'⟩
        have h2 : (parseTemplates env entries v).2 = v' := by rw [hpt]
        have : v'.tmpls.isSome := by rw [← h2]; exact hp
        cases o <;> simpa
      · simp [hr, hv]
    · unfold execute
      by_cases hr : v.reload
      · simp only [hr, if_true]
        rcases hpt : parseTemplates env entries v with ⟨o, v'⟩
        have h2 : (parseTemplates env entries v).2 = v' := by rw [hpt]
        have : v'.tmpls.isSome := by rw [← h2]; exact hp
        cases o <;> simpa
      · simp [hr, hv]
  · intro env entries p x r e
    unfold newViews
    cases hw : runWalk env ⟨r, p, x, none⟩ [] entries <;>
      simp [parseTemplates, hw]

def env6 : Env :=
  ⟨fun p => if p == gs "t/a.tmpl" then .ok (gs "hello") else .error (gs "ENOENT"),
   fun _ => none⟩

/-- C6 witness: a concrete successful construction yields a non-nil
collection, every operation keeps it non-nil, and a concrete failing
construction returns exactly the initial pass's error. -/
theorem c6_wit :
    (⟨false, gs "t", gs ".tmpl", some [(gs "a", gs "hello")]⟩ : Views).tmpls.isSome ∧
    (parseTemplates envReadFail entriesSimple vInstalled).2.tmpls.isSome ∧
    (newViews envReadFail entriesSimple (gs "t") (gs ".tmpl") false
      = NewOut.err (gs "EACCES")) :=
  ⟨c6_collection_nonnil.1 env6 entriesSimple (gs "t") (gs ".tmpl") false
      ⟨false, gs "t", gs ".tmpl", some [(gs "a", gs "hello")]⟩ (by decide),
   (c6_collection_nonnil.2.1 envReadFail entriesSimple vInstalled (by decide)).1,
   (c6_collection_nonnil.2.2 envReadFail entriesSimple (gs "t") (gs ".tmpl") false
      (gs "EACCES")).mpr (by decide)⟩

/-- The selection test the walk callback applies to an entry (view.go line
91): not a directory and filepath.Ext of the path equal to tmplExt. -/
def matchedEntry (v : Views) (e : WalkEntry) : Bool :=
  e.info == some false && filepathExt e.path == v.tmplExt

/-- Auxiliary: on a clean walk - no incoming per-entry errors, no nil
FileInfo, and every matched entry readable, parseable and nameable - the
traversal completes and appends to the accumulator exactly the matched
entries, in visit order. -/
theorem runWalk_clean (env : Env) (v : Views) (content nameOf : WalkEntry → GoStr) :
    ∀ (es : List WalkEntry) (t : Tmpl),
    (∀ e ∈ es, e.err = none ∧ e.info ≠ none ∧
      (matchedEntry v e = true →
        env.readFile e.path = Except.ok (content e) ∧
        env.parseRes (content e) = none ∧
        templateName v.path v.tmplExt e.path = some (nameOf e))) →
    runWalk env v t es
      = WalkOut.done (t ++ (es.filter (matchedEntry v)).map (fun e => (nameOf e, content e)))
  := by
  intro es
  induction es with
  | nil => intro t h; simp [runWalk]
  | cons e es ih =>
    intro t h
    obtain ⟨herr, hinfo, hmat⟩ := h e (List.mem_cons_self e es)
    have hrest := fun e2 he2 => h e2 (List.mem_cons_of_mem e he2)
    cases hi : e.info with
    | none => exact absurd hi hinfo
    | some b =>
      cases b with
      | true =>
        have hstep : walkStep env v t e = StepOut.next t := by
          unfold walkStep; simp [hi, herr]
        have hfilt : matchedEntry v e = false := by simp [matchedEntry, hi]
        simp [runWalk, hstep, List.filter_cons, hfilt, ih t hrest]
      | false =>
        by_cases hx : (filepathExt e.path == v.tmplExt) = true
        · have hm : matchedEntry v e = true := by simp [matchedEntry, hi, hx]
          obtain ⟨hr, hp, hn⟩ := hmat hm
          have hstep : walkStep env v t e = StepOut.next (tmplAdd t (nameOf e) (content e)) := by
            unfold walkStep; simp [hi, hx, hr, hn, hp, herr]
          have hrun := ih (tmplAdd t (nameOf e) (content e)) hrest
          simp only [tmplAdd] at hrun
          simp [runWalk, hstep, List.filter_cons, hm, tmplAdd, hrun]
        · have hm : matchedEntry v e = false := by
            simp only [matchedEntry, Bool.and_eq_true, not_and] at hx ⊢
            simp [Bool.eq_false_iff]
            intro _
            simpa using hx
          have hstep : walkStep env v t e = StepOut.next t := by
            unfold walkStep
            simp only [hi]
            simp [hx, herr]
          simp [runWalk, hstep, List.filter_cons, hm, ih t hrest]

def v7 : Views := ⟨false, gs "d", gs "tmpl", none⟩

def env7 : Env := ⟨fun _ => .ok (gs "hi"), fun _ => none⟩

def entries7 : List WalkEntry :=
  [⟨gs "d", some true, none⟩, ⟨gs "d/foo.tmpl", some false, none⟩]

/-- C7 counterexample: with selector tmpl (no dot) the non-directory entry
d/foo.tmpl carries that selector as an exact suffix of its name, yet the
pass succeeds with an empty collection - the file was skipped, because the
code compares filepath.Ext (which is .tmpl here) with the selector, not a
suffix match - so the claimed criterion fails for this choice of selector. -/
theorem c7_cex :
    (gs "tmpl").isSuffixOf (gs "d/foo.tmpl") = true ∧
    filepathExt (gs "d/foo.tmpl") ≠ gs "tmpl" ∧
    parseTemplates env7 entries7 v7 = (POut.ok, { v7 with tmpls := some [] }) := by decide

/-- C7 amended: a compile pass over a clean walk includes as template
sources exactly the entries that are not directories and whose filepath
extension - the suffix starting at the final dot of the final path element -
equals the configured selector; every other entry is skipped silently, and
the installed collection lists precisely the matched entries in visit
order. -/
theorem c7_included_iff_ext_matches (env : Env) (v : Views)
    (content nameOf : WalkEntry → GoStr) (es : List WalkEntry)
    (h : ∀ e ∈ es, e.err = none ∧ e.info ≠ none ∧
      (matchedEntry v e = true →
        env.readFile e.path = Except.ok (content e) ∧
        env.parseRes (content e) = none ∧
        templateName v.path v.tmplExt e.path = some (nameOf e))) :
    parseTemplates env es v =
      (POut.ok,
       { v with tmpls := some ((es.filter (matchedEntry v)).map
           (fun e => (nameOf e, content e))) }) := by
  unfold parseTemplates
  rw [runWalk_clean env v content nameOf es [] h]
  simp

/-- C7 witness: a concrete clean walk with one directory and one matching
file installs exactly that file's unit. -/
theorem c7_wit :
    parseTemplates env6 entriesSimple (⟨false, gs "t", gs ".tmpl", none⟩ : Views) =
      (POut.ok, ⟨false, gs "t", gs ".tmpl", some [(gs "a", gs "hello")]⟩) := by
  have h := c7_included_iff_ext_matches env6 (⟨false, gs "t", gs ".tmpl", none⟩ : Views)
    (fun _ => gs "hello") (fun _ => gs "a") entriesSimple (by decide)
  exact h.trans (by decide)

def v10 : Views := ⟨false, gs "t", gs ".tmpl", none⟩

def e10a : WalkEntry := ⟨gs "t", some true, none⟩

def e10b : WalkEntry := ⟨gs "t/\\a.tmpl", some false, none⟩

def e10c : WalkEntry := ⟨gs "t/a.tmpl", some false, none⟩

/-- C10: two distinct files under the root - a.tmpl and the file whose name
begins with a literal backslash, visited first in lexical order - derive the
same name a; the pass does not fail on the collision: it succeeds, both
units are defined, and lookup of the shared name returns the parse of the
file visited later in walk order - silent last-wins. -/
theorem c10_collision_last_wins (env : Env) (c1 c2 : GoStr)
    (h1 : env.readFile (gs "t/\\a.tmpl") = Except.ok c1)
    (h2 : env.readFile (gs "t/a.tmpl") = Except.ok c2)
    (h3 : env.parseRes c1 = none) (h4 : env.parseRes c2 = none) :
    gs "t/\\a.tmpl" ≠ gs "t/a.tmpl" ∧
    templateName (gs "t") (gs ".tmpl") (gs "t/\\a.tmpl") = some (gs "a") ∧
    templateName (gs "t") (gs ".tmpl") (gs "t/a.tmpl") = some (gs "a") ∧
    parseTemplates env [e10a, e10b, e10c] v10 =
      (POut.ok, { v10 with tmpls := some [(gs "a", c1), (gs "a", c2)] }) ∧
    tmplLookup [(gs "a", c1), (gs "a", c2)] (gs "a") = some c2 := by
  have hxb : (filepathExt (gs "t/\\a.tmpl") == (gs ".tmpl")) = true := by decide
  have hxc : (filepathExt (gs "t/a.tmpl") == (gs ".tmpl")) = true := by decide
  have hnb : templateName (gs "t") (gs ".tmpl") (gs "t/\\a.tmpl") = some (gs "a") := by decide
  have hnc : templateName (gs "t") (gs ".tmpl") (gs "t/a.tmpl") = some (gs "a") := by decide
  have s1 : walkStep env v10 [] e10a = StepOut.next [] := by
    unfold walkStep; simp [e10a]
  have s2 : walkStep env v10 [] e10b = StepOut.next [(gs "a", c1)] := by
    unfold walkStep
    simp [e10b, v10, hxb, h1, h3, hnb, tmplAdd]
  have s3 : walkStep env v10 [(gs "a", c1)] e10c
      = StepOut.next [(gs "a", c1), (gs "a", c2)] := by
    unfold walkStep
    simp [e10c, v10, hxc, h2, h4, hnc, tmplAdd]
  refine ⟨by decide, hnb, hnc, ?_, ?_⟩
  · simp [parseTemplates, runWalk, s1, s2, s3]
  · simp [tmplLookup, gs]

/-- C10 witness: the collision scenario evaluated on a concrete filesystem;
the later file's content wins. -/
theorem c10_wit :
    parseTemplates
      ⟨fun p => if p == gs "t/\\a.tmpl" then .ok (gs "first") else .ok (gs "second"),
       fun _ => none⟩ [e10a, e10b, e10c] v10 =
      (POut.ok, { v10 with tmpls := some [(gs "a", gs "first"), (gs "a", gs "second")] }) ∧
    tmplLookup [(gs "a", gs "first"), (gs "a", gs "second")] (gs "a") = some (gs "second") :=
  ⟨(c10_collision_last_wins
      ⟨fun p => if p == gs "t/\\a.tmpl" then .ok (gs "first") else .ok (gs "second"),
       fun _ => none⟩ (gs "first") (gs "second") (by decide) (by decide) rfl rfl).2.2.2.1,
   (c10_collision_last_wins
      ⟨fun p => if p == gs "t/\\a.tmpl" then .ok (gs "first") else .ok (gs "second"),
       fun _ => none⟩ (gs "first") (gs "second") (by decide) (by decide) rfl rfl).2.2.2.2⟩

def v9 : Views := ⟨false, gs "foo.tmpl", gs ".tmpl", none⟩

def env9 : Env := ⟨fun _ => .ok (gs "hi"), fun _ => none⟩

/-- C9 counterexample: when the root path is itself a matching template file
- a walk-reachable case the claim explicitly includes - removing the trimmed
root from the path leaves the empty string, which is shorter than the
extension, so the final slice underflows: TemplateName faults (none models
the Go slice-bounds panic) and the whole pass crashes instead of returning a
name. -/
theorem c9_cex :
    filepathExt (gs "foo.tmpl") = gs ".tmpl" ∧
    templateName (gs "foo.tmpl") (gs ".tmpl") (gs "foo.tmpl") = none ∧
    parseTemplates env9 [⟨gs "foo.tmpl", some false, none⟩] v9 = (POut.crash, v9) := by decide

/-- Auxiliary: deleting the first occurrence of a pattern from a string the
pattern prefixes leaves exactly the remainder. -/
theorem goReplaceOne_append (old rest : GoStr) : goReplaceOne (old ++ rest) old = rest := by
  cases old with
  | nil => simp [goReplaceOne]
  | cons o os =>
    show goReplaceOne (o :: (os ++ rest)) (o :: os) = rest
    unfold goReplaceOne
    have hpre : (o :: os).isPrefixOf (o :: (os ++ rest)) = true := by
      rw [List.isPrefixOf_iff_prefix]
      exact List.prefix_append (o :: os) rest
    rw [if_pos hpre]
    exact List.drop_left (o :: os) rest

/-- Auxiliary: stripping leading separators from a slash followed by a
string that does not start with a separator yields that string. -/
theorem goTrimLeft_slash (rel : GoStr)
    (h : Option.all (fun c => !cutSep.contains c) rel.head? = true) :
    goTrimLeft ('/' :: rel) cutSep = rel := by
  unfold goTrimLeft
  rw [List.dropWhile_cons]
  rw [if_pos (by decide)]
  cases rel with
  | nil => rfl
  | cons c r =>
    rw [List.dropWhile_cons]
    have hc : cutSep.contains c = false := by
      simp [Option.all] at h
      simp [h]
    rw [if_neg (by simpa using hc)]

/-- C9 amended: for a walked path of the usual shape - the trimmed root, a
separator, then a relative name that does not itself start with a separator
and carries the extension as a suffix - the string remaining after root
removal and leading-separator trimming is the relative name, whose length is
at least the extension's, so the final fixed-length slice stays in bounds
and TemplateName returns the relative name without its extension; the claim
fails only in the degenerate cases (notably the root path itself being the
matched file) where the remainder is shorter than the extension and the
slice faults. -/
theorem c9_slice_in_bounds_below_root (path ext rel : GoStr)
    (hhead : Option.all (fun c => !cutSep.contains c) rel.head? = true)
    (hsuf : List.IsSuffix ext rel) :
    templateName path ext (goTrim path cutTrim ++ '/' :: rel)
      = some (rel.take (rel.length - ext.length)) := by
  unfold templateName
  simp only [goReplaceOne_append, goTrimLeft_slash rel hhead]
  rw [if_pos hsuf.length_le]

/-- C9 witness: the amended statement at the canonical example path. -/
theorem c9_wit :
    templateName (gs "templates") (gs ".tmpl")
        (goTrim (gs "templates") cutTrim ++ '/' :: gs "foo/bar/index.tmpl")
      = some ((gs "foo/bar/index.tmpl").take
          ((gs "foo/bar/index.tmpl").length - (gs ".tmpl").length)) :=
  c9_slice_in_bounds_below_root (gs "templates") (gs ".tmpl") (gs "foo/bar/index.tmpl")
    (by decide) (by decide)
